import Mathlib

/-!
# Shallow embedding of `smallsh.c` (Biaska/Small-Shell)

This file embeds the process-execution and job-tracking engine of the
small shell in `src/smallsh.c` and proves the specification claims about
it.  The embedding keeps the source's names where Lean allows it:

* `last_status`, `command_line` — the two C structs;
* `handle_SIGTSTP`, `handle_SIGINT` — the two signal handlers;
* `check_background_processes` — the background-job reaper;
* `add_bg_process` — insertion into the fixed-capacity pid table;
* `parse_input` — the tokenizer/parser (over an already-tokenized line);
* `foreground_process`, `background_process` — the parent-side launch
  paths, and `fg_child` / `bg_child` — the child-side bodies between
  `fork` and `execvp`;
* `main_iteration` — one pass of the interpreter loop in `main`.

OS interaction is made explicit: the outcome of `waitpid` is an oracle
`Int → Option Termination` (`none` = still running / not reapable,
`some t` = reaped with termination `t`), the outcome of `fork` is an
`Option Int` (`none` = fork failed), and the success of every fallible
call inside a child (`open`, `dup2`, `execvp`) is a `ChildEnv` oracle.
Terminal output is modelled as a list of printed strings / events;
`perror` output (which depends on `errno` text) is not modelled, only
the control flow that follows it.
-/

set_option autoImplicit false

namespace Smallsh

/-- Capacity of the background-process table: `#define MAX_BG_PC 20`. -/
def MAX_BG_PC : Nat := 20

/-- The C struct `last_status`: the record of the most recent foreground
termination.  `code : Int` mirrors the C `int` field. -/
structure last_status where
  exited : Bool
  terminated : Bool
  code : Int
deriving Repr, DecidableEq

/-- The C struct `command_line`.  `argv`/`argc` are collapsed into a single
`List String` (so `argc = argv.length`); the two optional redirection
paths and the background flag are as in the source. -/
structure command_line where
  argv : List String
  input_file : Option String
  output_file : Option String
  is_bg : Bool
deriving Repr, DecidableEq

/-- How a waited-on child terminated, as classified by the `WIFEXITED` /
`WIFSIGNALED` macros: either a normal exit carrying `WEXITSTATUS`, or a
kill by signal carrying `WTERMSIG`. -/
inductive Termination where
  | exited (code : Int)
  | signaled (sig : Int)
deriving Repr, DecidableEq

/-- The process-wide mutable state of the shell: `fg_only`,
`background_processes` (the 20-slot pid array, `0` = free slot) and
`prev_fg_status`. -/
structure Session where
  fg_only : Bool
  background_processes : List Int
  prev_fg_status : last_status
deriving Repr, DecidableEq

/-- The initial state set up by the C global initializers:
`fg_only = false`, all 20 table slots `0`,
`prev_fg_status = {false, false, 0}`. -/
def init_session : Session :=
  ⟨false, List.replicate MAX_BG_PC 0, ⟨false, false, 0⟩⟩

/-- Observable terminal events of the parent shell. -/
inductive Event where
  | fork (pid : Int)
  | waitBlock (pid : Int)
  | print (msg : String)
deriving Repr, DecidableEq

/-- The banner written by `handle_SIGTSTP` when entering
foreground-only mode (the source string carries its surrounding
newlines). -/
def msg_enter : String := "\nEntering foreground-only mode (& is now ignored)\n"

/-- The banner written by `handle_SIGTSTP` when leaving
foreground-only mode. -/
def msg_exit : String := "\nExiting foreground-only mode\n"

/-- `handle_SIGTSTP`: flips `fg_only` and writes the matching banner with
a single async-signal-safe `write`.  Input: the current `fg_only`;
output: the new `fg_only` and the strings written. -/
def handle_SIGTSTP (fg_only : Bool) : Bool × List String :=
  if !fg_only then (true, [msg_enter]) else (false, [msg_exit])

/-- `handle_SIGINT`: the handler body is empty — the shell discards the
signal, changing no state and never exiting. -/
def handle_SIGINT (st : Session) : Session := st

/-- Message printed by the reaper for a finished background process
(`printf` at lines 83 and 86 of the source). -/
def bg_done_message (pid : Int) (t : Termination) : String :=
  match t with
  | .exited c => "background pid " ++ toString pid ++ " is done: exit value " ++ toString c
  | .signaled s => "background pid " ++ toString pid ++ " is done: terminated by signal " ++ toString s

/-- `check_background_processes`: walk the pid table in slot order; for
every nonzero slot poll `waitpid(pid, &st, WNOHANG)` (the oracle `env`);
a reaped process is reported and its slot zeroed, a still-running (or
unreapable) one is left in place.  Returns the new table and the
messages printed, in slot order. -/
def check_background_processes (env : Int → Option Termination) :
    List Int → List Int × List String
  | [] => ([], [])
  | p :: rest =>
    let r := check_background_processes env rest
    if p ≠ 0 then
      match env p with
      | some t => (0 :: r.1, bg_done_message p t :: r.2)
      | none => (p :: r.1, r.2)
    else (p :: r.1, r.2)

/-- `add_bg_process`: store `pid` in the first slot holding `0`; if no
slot is free the pid is silently dropped and the table is unchanged. -/
def add_bg_process (pid : Int) : List Int → List Int
  | [] => []
  | x :: xs => if x = 0 then pid :: xs else x :: add_bg_process pid xs

/-- `parse_input`, over the token list produced by `strtok(input, " \n")`.
A `<` or `>` consumes the following token as a path via
`strdup(strtok(NULL, " \n"))`; when no token follows, the C code passes
`NULL` to `strdup`, which is undefined behaviour (a crash) — modelled as
`none`.  `&` sets the background flag; any other token is appended to
`argv`. -/
def parse_tokens : List String → command_line → Option command_line
  | [], acc => some acc
  | tok :: rest, acc =>
    if tok = "<" then
      match rest with
      | [] => none
      | f :: rest' => parse_tokens rest' { acc with input_file := some f }
    else if tok = ">" then
      match rest with
      | [] => none
      | f :: rest' => parse_tokens rest' { acc with output_file := some f }
    else if tok = "&" then
      parse_tokens rest { acc with is_bg := true }
    else
      parse_tokens rest { acc with argv := acc.argv ++ [tok] }

/-- `parse_input` starts from the `calloc`-zeroed `command_line`. -/
def parse_input (tokens : List String) : Option command_line :=
  parse_tokens tokens ⟨[], none, none, false⟩

/-! ## Child-side execution (between `fork` and `execvp`) -/

/-- Success/failure oracle for the fallible calls a child makes, one flag
per call site: `open` of the input path, `dup2` onto fd 0, `open` of the
output path, `dup2` onto fd 1, and `execvp`. -/
structure ChildEnv where
  open_in_ok : Bool
  dup_in_ok : Bool
  open_out_ok : Bool
  dup_out_ok : Bool
  exec_ok : Bool
deriving Repr, DecidableEq

/-- The file mode a child opens a redirection path with: `O_RDONLY` for
input, `O_WRONLY | O_CREAT | O_TRUNC` with permissions `0644` for
output. -/
inductive FileMode where
  | readOnly
  | writeCreateTrunc644
deriving Repr, DecidableEq

/-- The observable actions a child performs before (and including) the
attempt to replace its program image.  `setSigintDefault` is the action
of explicitly restoring `SIGINT` to `SIG_DFL`; it is part of the action
vocabulary so that its absence from the source can be stated. -/
inductive ChildAction where
  | openFile (path : String) (mode : FileMode)
  | dupTo (fd : Nat)
  | setSigintDefault
  | exec (prog : String)
deriving Repr, DecidableEq

/-- How a child's pre-exec phase ends: it either calls `exit(code)`
itself, or successfully replaces its image with the target program. -/
inductive ChildResult where
  | exitedWith (code : Int)
  | execed (prog : String) (args : List String)
deriving Repr, DecidableEq

/-- Child body of `foreground_process` (source lines 196–233): redirect
stdin only when an input path was given (`open` failure → `exit(1)`,
`dup2` failure → `exit(2)`), likewise stdout, then `execvp(argv[0], argv)`
(failure → `exit(2)`).  Returns the result and the trace of actions. -/
def fg_child (env : ChildEnv) (cmd : command_line) : ChildResult × List ChildAction :=
  let inActs : List ChildAction :=
    match cmd.input_file with
    | some f => [.openFile f .readOnly, .dupTo 0]
    | none => []
  match cmd.input_file with
  | some f =>
    if !env.open_in_ok then (.exitedWith 1, [.openFile f .readOnly])
    else if !env.dup_in_ok then (.exitedWith 2, [.openFile f .readOnly, .dupTo 0])
    else
      match cmd.output_file with
      | some g =>
        if !env.open_out_ok then (.exitedWith 1, inActs ++ [.openFile g .writeCreateTrunc644])
        else if !env.dup_out_ok then
          (.exitedWith 2, inActs ++ [.openFile g .writeCreateTrunc644, .dupTo 1])
        else if env.exec_ok then
          (.execed (cmd.argv.headD "") cmd.argv,
            inActs ++ [.openFile g .writeCreateTrunc644, .dupTo 1, .exec (cmd.argv.headD "")])
        else
          (.exitedWith 2,
            inActs ++ [.openFile g .writeCreateTrunc644, .dupTo 1, .exec (cmd.argv.headD "")])
      | none =>
        if env.exec_ok then
          (.execed (cmd.argv.headD "") cmd.argv, inActs ++ [.exec (cmd.argv.headD "")])
        else (.exitedWith 2, inActs ++ [.exec (cmd.argv.headD "")])
  | none =>
    match cmd.output_file with
    | some g =>
      if !env.open_out_ok then (.exitedWith 1, [.openFile g .writeCreateTrunc644])
      else if !env.dup_out_ok then
        (.exitedWith 2, [.openFile g .writeCreateTrunc644, .dupTo 1])
      else if env.exec_ok then
        (.execed (cmd.argv.headD "") cmd.argv,
          [.openFile g .writeCreateTrunc644, .dupTo 1, .exec (cmd.argv.headD "")])
      else
        (.exitedWith 2, [.openFile g .writeCreateTrunc644, .dupTo 1, .exec (cmd.argv.headD "")])
    | none =>
      if env.exec_ok then (.execed (cmd.argv.headD "") cmd.argv, [.exec (cmd.argv.headD "")])
      else (.exitedWith 2, [.exec (cmd.argv.headD "")])

/-- Child body of `background_process` (source lines 285–331): the input
side is always redirected, to `input_file` when given and to `/dev/null`
otherwise, then likewise the output side; failure codes and the final
`execvp` are as in `fg_child`. -/
def bg_child (env : ChildEnv) (cmd : command_line) : ChildResult × List ChildAction :=
  let src := cmd.input_file.getD "/dev/null"
  let tgt := cmd.output_file.getD "/dev/null"
  if !env.open_in_ok then (.exitedWith 1, [.openFile src .readOnly])
  else if !env.dup_in_ok then (.exitedWith 2, [.openFile src .readOnly, .dupTo 0])
  else if !env.open_out_ok then
    (.exitedWith 1, [.openFile src .readOnly, .dupTo 0, .openFile tgt .writeCreateTrunc644])
  else if !env.dup_out_ok then
    (.exitedWith 2,
      [.openFile src .readOnly, .dupTo 0, .openFile tgt .writeCreateTrunc644, .dupTo 1])
  else if env.exec_ok then
    (.execed (cmd.argv.headD "") cmd.argv,
      [.openFile src .readOnly, .dupTo 0, .openFile tgt .writeCreateTrunc644, .dupTo 1,
        .exec (cmd.argv.headD "")])
  else
    (.exitedWith 2,
      [.openFile src .readOnly, .dupTo 0, .openFile tgt .writeCreateTrunc644, .dupTo 1,
        .exec (cmd.argv.headD "")])

/-! ## Signal dispositions across `fork`/`exec` -/

/-- A process's disposition for a signal. -/
inductive Disposition where
  | dfl
  | ign
  | handler
deriving Repr, DecidableEq

/-- The shell installs `handle_SIGINT` for `SIGINT` in `main`, so every
child forked from it inherits a `handler` disposition for `SIGINT`. -/
def shell_sigint_disposition : Disposition := .handler

/-- Modelled from POSIX `exec` semantics (not from `src/`): signals whose
disposition is a caught handler are reset to the default disposition
across a successful `exec`; ignored and default dispositions are
inherited unchanged. -/
def disposition_after_exec : Disposition → Disposition
  | .handler => .dfl
  | d => d

/-- Run a child's action trace over its inherited `SIGINT` disposition:
an explicit `setSigintDefault` sets it to `dfl`, a (successful) `exec`
applies `disposition_after_exec`, and every other action leaves it
alone.  The result is the disposition the executed program starts
with. -/
def run_disposition : List ChildAction → Disposition → Disposition
  | [], d => d
  | .setSigintDefault :: rest, _ => run_disposition rest .dfl
  | .exec _ :: rest, d => run_disposition rest (disposition_after_exec d)
  | _ :: rest, d => run_disposition rest d

/-! ## Parent-side launch paths and the interpreter loop -/

/-- Result of one parent-side step: the new session state, the events it
produced, and `shell_exit = some c` exactly when the interpreter itself
called `exit(c)`. -/
structure ProcResult where
  session : Session
  events : List Event
  shell_exit : Option Int
deriving Repr, DecidableEq

/-- Classification performed in the parent branch of
`foreground_process` (source lines 242–250): `WIFSIGNALED` is tested
first and records `{exited := false, terminated := true, code := WTERMSIG}`,
otherwise `WIFEXITED` records
`{exited := true, terminated := false, code := WEXITSTATUS}`. -/
def classify_fg : Termination → last_status
  | .signaled s => ⟨false, true, s⟩
  | .exited c => ⟨true, false, c⟩

/-- The eager message of `foreground_process` for a signal-killed
child. -/
def fg_signal_message (sig : Int) : String :=
  "terminated by signal " ++ toString sig

/-- The message `background_process` prints right after forking. -/
def bg_start_message (pid : Int) : String :=
  "background pid is " ++ toString pid

/-- Parent side of `foreground_process`: `fork` (failure → the shell
itself exits with status 1), then a blocking `waitpid` on the child's
pid, classification into `prev_fg_status` overwriting the old record,
and an eager "terminated by signal N" print exactly when the new record
is tagged `terminated`.  `t` is the termination delivered by
`waitpid`. -/
def foreground_process (fork_res : Option Int) (t : Termination) (st : Session) : ProcResult :=
  match fork_res with
  | none => ⟨st, [], some 1⟩
  | some pid =>
    let s := classify_fg t
    ⟨{ st with prev_fg_status := s },
      [Event.fork pid, Event.waitBlock pid] ++
        (if s.terminated then [Event.print (fg_signal_message s.code)] else []),
      none⟩

/-- Parent side of `background_process`: `fork` (failure → the shell
itself exits with status 1), then `add_bg_process(childPid)` and an
immediate "background pid is P" print; no wait of any kind, and
`prev_fg_status` is untouched. -/
def background_process (fork_res : Option Int) (st : Session) : ProcResult :=
  match fork_res with
  | none => ⟨st, [], some 1⟩
  | some pid =>
    ⟨{ st with background_processes := add_bg_process pid st.background_processes },
      [Event.fork pid, Event.print (bg_start_message pid)], none⟩

/-- The dispatch of a non-built-in command (source lines 405–409):
background exactly when `is_bg && fg_only == false`, foreground
otherwise. -/
def dispatch_external (fork_res : Option Int) (t : Termination) (cmd : command_line)
    (st : Session) : ProcResult :=
  if cmd.is_bg && !st.fg_only then background_process fork_res st
  else foreground_process fork_res t st

/-- Output of the `status` built-in (source lines 396–402): the `exited`
tag wins, then the `terminated` tag, and the untouched initial record
falls through to "exit status 0". -/
def status_output (s : last_status) : String :=
  if s.exited then "exit value " ++ toString s.code
  else if s.terminated then "terminated by signal " ++ toString s.code
  else "exit status 0"

/-- OS oracle for one interpreter loop iteration: the reaper's `waitpid`
outcomes, whether `fork` succeeds, the pid the fork returns, and the
termination an eventual foreground wait observes. -/
structure IterOracle where
  reap_env : Int → Option Termination
  fork_ok : Bool
  child_pid : Int
  fg_term : Termination

/-- One iteration of the `while(true)` loop in `main`: first
`check_background_processes()`, then the parsed command is examined —
empty lines and `#` comments do nothing, `exit` exits the shell with
status 0, `cd` changes the working directory (outside this model's
state), `status` prints the tracked record, and anything else goes to
`dispatch_external`. -/
def main_iteration (o : IterOracle) (cmd : command_line) (st : Session) : ProcResult :=
  let reaped := check_background_processes o.reap_env st.background_processes
  let st1 : Session := { st with background_processes := reaped.1 }
  let reapEvents := reaped.2.map Event.print
  match cmd.argv.head? with
  | none => ⟨st1, reapEvents, none⟩
  | some c =>
    if c.data.head? = some '#' then ⟨st1, reapEvents, none⟩
    else if c = "exit" then ⟨st1, reapEvents, some 0⟩
    else if c = "cd" then ⟨st1, reapEvents, none⟩
    else if c = "status" then
      ⟨st1, reapEvents ++ [Event.print (status_output st1.prev_fg_status)], none⟩
    else
      let r := dispatch_external (if o.fork_ok then some o.child_pid else none) o.fg_term cmd st1
      ⟨r.session, reapEvents ++ r.events, r.shell_exit⟩

/-- What the reaper does to one slot: a nonzero pid whose poll reports a
termination is zeroed; everything else is left as is. -/
def reap_slot (env : Int → Option Termination) (p : Int) : Int :=
  if p ≠ 0 then (match env p with | some _ => 0 | none => p) else p

/-- Number of `fork` events in an event trace. -/
def forkCount (evs : List Event) : Nat :=
  (evs.filter fun e => match e with | .fork _ => true | _ => false).length

/-- The C global initializer `static struct last_status prev_fg_status =
{false, false, 0}` (source line 35). -/
def prev_fg_status_init : last_status := ⟨false, false, 0⟩

/-- A concrete `waitpid` oracle used by witnesses: pid 7 has terminated
with exit value 0; every other pid still runs. -/
def env0 : Int → Option Termination := fun p => if p = 7 then some (.exited 0) else none

/-- The recursion of `parse_tokens` crashes exactly when it reaches a
`<` or `>` in operator position (not consumed as the filename of a
preceding redirection) as the very last token.  This is the
spec-side characterization the parse result is compared against. -/
def trailing_redirect_crash : List String → Bool
  | [] => false
  | [t] => t = "<" || t = ">"
  | t :: f :: rest =>
    if t = "<" || t = ">" then trailing_redirect_crash rest
    else trailing_redirect_crash (f :: rest)

/-! ## Helper lemmas -/

/-- Two strings with different first characters are different. -/
theorem ne_of_data_head (s₁ s₂ : String) (h : s₁.data.head? ≠ s₂.data.head?) : s₁ ≠ s₂ :=
  fun e => h (congrArg (fun s => s.data.head?) e)

/-- The background-start message never coincides with the eager
foreground kill message (they start with different characters). -/
theorem bg_start_message_ne_fg_signal_message (p s : Int) :
    bg_start_message p ≠ fg_signal_message s := by
  apply ne_of_data_head
  intro h
  have h1 : (bg_start_message p).data.head? = some 'b' := rfl
  have h2 : (fg_signal_message s).data.head? = some 't' := rfl
  rw [h1, h2] at h
  exact absurd h (by decide)

theorem check_background_processes_fst (env : Int → Option Termination) (l : List Int) :
    (check_background_processes env l).1 = l.map (reap_slot env) := by
  induction l with
  | nil => rfl
  | cons p rest ih =>
    by_cases hp : p = 0
    · simp [check_background_processes, reap_slot, hp, ih]
    · cases henv : env p <;>
        simp [check_background_processes, reap_slot, hp, henv, ih]

theorem reap_slot_idem (env : Int → Option Termination) (p : Int) :
    reap_slot env (reap_slot env p) = reap_slot env p := by
  unfold reap_slot
  by_cases hp : p = 0
  · simp [hp]
  · cases henv : env p <;> simp [hp, henv]

theorem check_background_processes_snd_mem (env : Int → Option Termination) (l : List Int)
    (p : Int) (t : Termination) (hmem : p ∈ l) (hp : p ≠ 0) (henv : env p = some t) :
    bg_done_message p t ∈ (check_background_processes env l).2 := by
  induction l with
  | nil => cases hmem
  | cons q rest ih =>
    simp only [check_background_processes]
    rcases List.mem_cons.mp hmem with hq | hq
    · subst hq
      simp [hp, henv]
    · by_cases hq0 : q = 0
      · simp [hq0, ih hq]
      · cases henvq : env q <;> simp [hq0, henvq, ih hq]

theorem check_background_processes_snd_nil (env : Int → Option Termination) (l : List Int)
    (h : ∀ p ∈ l, p = 0 ∨ env p = none) :
    (check_background_processes env l).2 = [] := by
  induction l with
  | nil => rfl
  | cons q rest ih =>
    have hq := h q (List.mem_cons_self q rest)
    have hrest : ∀ p ∈ rest, p = 0 ∨ env p = none :=
      fun p hp => h p (List.mem_cons_of_mem q hp)
    simp only [check_background_processes]
    rcases hq with hq | hq
    · simp [hq, ih hrest]
    · by_cases hq0 : q = 0
      · simp [hq0, ih hrest]
      · simp [hq0, hq, ih hrest]

theorem reap_slot_cases (env : Int → Option Termination) (p : Int) :
    reap_slot env p = 0 ∨ reap_slot env p = p := by
  unfold reap_slot
  by_cases hp : p = 0
  · simp [hp]
  · cases henv : env p <;> simp [hp, henv]

/-- The live (nonzero) pids surviving a reap pass form a sublist of the
live pids before it. -/
theorem reap_filter_sublist (env : Int → Option Termination) (l : List Int) :
    List.Sublist ((l.map (reap_slot env)).filter fun p => p != 0)
      (l.filter fun p => p != 0) := by
  induction l with
  | nil => simp
  | cons q rest ih =>
    simp only [List.map_cons]
    rcases reap_slot_cases env q with h | h
    · rw [h]
      by_cases hq : q = 0
      · subst hq
        simpa using ih
      · simp only [List.filter_cons, bne_self_eq_false, Bool.false_eq_true, if_false,
          (show (q != 0) = true by simp [hq]), if_true]
        exact ih.cons q
    · rw [h]
      by_cases hq : q = 0
      · subst hq
        simpa using ih
      · simp only [List.filter_cons, (show (q != 0) = true by simp [hq]), if_true]
        exact ih.cons₂ q

/-- Membership in the table after `add_bg_process`: every entry is the
new pid or an old entry. -/
theorem add_bg_process_mem (pid q : Int) (l : List Int) (h : q ∈ add_bg_process pid l) :
    q = pid ∨ q ∈ l := by
  induction l with
  | nil => simp [add_bg_process] at h
  | cons x xs ih =>
    simp only [add_bg_process] at h
    by_cases hx : x = 0
    · simp only [hx, if_pos rfl] at h
      rcases List.mem_cons.mp h with h | h
      · exact Or.inl h
      · exact Or.inr (List.mem_cons_of_mem _ h)
    · simp only [if_neg hx] at h
      rcases List.mem_cons.mp h with h | h
      · exact Or.inr (by simp [h])
      · rcases ih h with h | h
        · exact Or.inl h
        · exact Or.inr (List.mem_cons_of_mem _ h)

/-- First-free-slot specification of `add_bg_process`: if no slot is
free the table is unchanged; otherwise some index `i` holds the first
`0` and the result is the table with slot `i` set to `pid`. -/
theorem add_bg_process_spec (pid : Int) (l : List Int) :
    ((0 : Int) ∉ l → add_bg_process pid l = l) ∧
      ((0 : Int) ∈ l → ∃ i, i < l.length ∧ l[i]? = some 0 ∧
        (∀ j < i, l[j]? ≠ some 0) ∧ add_bg_process pid l = l.set i pid) := by
  induction l with
  | nil => simp [add_bg_process]
  | cons x xs ih =>
    constructor
    · intro h
      have hx : x ≠ 0 := fun e => h (by simp [e])
      have hxs : (0 : Int) ∉ xs := fun e => h (List.mem_cons_of_mem _ e)
      simp [add_bg_process, hx, ih.1 hxs]
    · intro _
      by_cases hx : x = 0
      · refine ⟨0, by simp, by simp [hx], by simp, ?_⟩
        simp [add_bg_process, hx]
      · have hxs : (0 : Int) ∈ xs := by
          by_contra hne
          have : (0 : Int) ∉ x :: xs := by
            intro hmem
            rcases List.mem_cons.mp hmem with h | h
            · exact hx h.symm
            · exact hne h
          simp_all
        obtain ⟨i, hi, hget, hbefore, heq⟩ := ih.2 hxs
        refine ⟨i + 1, by simpa using hi, by simpa using hget, ?_, ?_⟩
        · intro j hj
          cases j with
          | zero => simpa using fun e => hx e
          | succ j' =>
            have : j' < i := by omega
            simpa using hbefore j' this
        · simp [add_bg_process, hx, heq]

/-- Adding a pid that is not already tracked preserves the
no-duplicate-live-pids invariant. -/
theorem add_bg_process_nodup (pid : Int) (l : List Int)
    (hfresh : pid ∉ l) (hnd : (l.filter fun p => p != 0).Nodup) :
    ((add_bg_process pid l).filter fun p => p != 0).Nodup := by
  induction l with
  | nil => simp [add_bg_process]
  | cons x xs ih =>
    have hfresh' : pid ∉ xs := fun h => hfresh (List.mem_cons_of_mem _ h)
    have hpidx : pid ≠ x := fun h => hfresh (by simp [h])
    by_cases hx : x = 0
    · subst hx
      simp only [add_bg_process, if_pos rfl]
      by_cases hpid : pid = 0
      · subst hpid
        simpa using hnd
      · simp only [List.filter_cons, show (pid != 0) = true by simp [hpid], if_true]
        refine List.Nodup.cons ?_ (by simpa using hnd)
        intro hmem
        exact hfresh' (List.mem_of_mem_filter hmem)
    · simp only [add_bg_process, if_neg hx]
      simp only [List.filter_cons, show (x != 0) = true by simp [hx], if_true] at hnd ⊢
      rw [List.nodup_cons] at hnd ⊢
      refine ⟨?_, ih hfresh' hnd.2⟩
      intro hmem
      have hx_in_add : x ∈ add_bg_process pid xs := List.mem_of_mem_filter hmem
      rcases add_bg_process_mem pid x xs hx_in_add with h | h
      · exact hpidx h.symm
      · exact hnd.1 (List.mem_filter.mpr ⟨h, by simp [hx]⟩)

/-! ## Claim theorems -/

/-- C1: Foreground execution — for a non-built-in command dispatched to
the foreground (successful fork), the shell launches exactly one child,
blocks until exactly that pid terminates, stores the classification of
the termination in the status tracker overwriting any previous record,
prints "terminated by signal N" iff the classification is
killed-by-signal, and an exited-with-code result is stored but prints
nothing eagerly. -/
theorem C1_foreground_execution (pid : Int) (t : Termination) (st : Session)
    (r : ProcResult) (hr : r = foreground_process (some pid) t st) :
    forkCount r.events = 1 ∧
    Event.waitBlock pid ∈ r.events ∧
    (∀ q, Event.waitBlock q ∈ r.events → q = pid) ∧
    r.session.prev_fg_status = classify_fg t ∧
    (∀ s, t = .signaled s → Event.print (fg_signal_message s) ∈ r.events) ∧
    (∀ m, Event.print m ∈ r.events → ∃ s, t = .signaled s ∧ m = fg_signal_message s) ∧
    (∀ c, t = .exited c →
      r.session.prev_fg_status = ⟨true, false, c⟩ ∧ ∀ m, Event.print m ∉ r.events) ∧
    r.session.fg_only = st.fg_only ∧
    r.session.background_processes = st.background_processes := by
  subst hr
  cases t <;>
    simp [foreground_process, classify_fg, forkCount, fg_signal_message, List.filter]

/-- C1 witness: instantiation at pid 7, a signal-11 kill, and the
initial session. -/
theorem C1_foreground_execution_witness :
    (foreground_process (some 7) (.signaled 11) init_session).session.prev_fg_status =
      classify_fg (.signaled 11) :=
  (C1_foreground_execution 7 (.signaled 11) init_session _ rfl).2.2.2.1

/-- C2: Dispatch routing — a non-built-in command goes to background
execution exactly when `is_bg` is set and `fg_only` is false; in every
other case it goes to foreground execution, and in particular with
`fg_only = true` an `is_bg` command blocks on its child's pid and prints
no background-start message. -/
theorem C2_dispatch_routing (fr : Option Int) (t : Termination) (cmd : command_line)
    (st : Session) :
    (cmd.is_bg = true → st.fg_only = false →
      dispatch_external fr t cmd st = background_process fr st) ∧
    ((cmd.is_bg = false ∨ st.fg_only = true) →
      dispatch_external fr t cmd st = foreground_process fr t st) ∧
    (∀ pid, cmd.is_bg = true → st.fg_only = true → fr = some pid →
      Event.waitBlock pid ∈ (dispatch_external fr t cmd st).events ∧
      ∀ p, Event.print (bg_start_message p) ∉ (dispatch_external fr t cmd st).events) := by
  refine ⟨?_, ?_, ?_⟩
  · intro hbg hfg
    simp [dispatch_external, hbg, hfg]
  · intro h
    rcases h with h | h <;> simp [dispatch_external, h]
  · intro pid hbg hfg hfr
    subst hfr
    have hdisp : dispatch_external (some pid) t cmd st = foreground_process (some pid) t st := by
      simp [dispatch_external, hbg, hfg]
    rw [hdisp]
    constructor
    · cases t <;> simp [foreground_process, classify_fg]
    · intro p hmem
      cases t <;> simp [foreground_process, classify_fg] at hmem
      exact bg_start_message_ne_fg_signal_message p _ hmem

/-- C2 witness: an `is_bg` command under `fg_only = true` at concrete
inputs. -/
theorem C2_dispatch_routing_witness :
    Event.waitBlock 9 ∈
      (dispatch_external (some 9) (.exited 0) ⟨["sleep", "5"], none, none, true⟩
        ⟨true, List.replicate MAX_BG_PC 0, ⟨false, false, 0⟩⟩).events :=
  ((C2_dispatch_routing (some 9) (.exited 0) ⟨["sleep", "5"], none, none, true⟩
    ⟨true, List.replicate MAX_BG_PC 0, ⟨false, false, 0⟩⟩).2.2 9 rfl rfl rfl).1

/-- C3: Background execution — on a successful fork the shell prints
"background pid is P" immediately with no wait of any kind, records `P`
into the first free (zero) slot of the table, silently leaves the table
unchanged when no slot is free, and never touches `prev_fg_status`; and
an interpreter iteration whose command is dispatched to the background
leaves `prev_fg_status` unchanged no matter which background processes
the reaper collects (background terminations never reach the status
tracker). -/
theorem C3_background_execution (pid : Int) (st : Session)
    (r : ProcResult) (hr : r = background_process (some pid) st) :
    r.events = [Event.fork pid, Event.print (bg_start_message pid)] ∧
    (∀ q, Event.waitBlock q ∉ r.events) ∧
    r.session.background_processes = add_bg_process pid st.background_processes ∧
    ((0 : Int) ∉ st.background_processes →
      r.session.background_processes = st.background_processes) ∧
    ((0 : Int) ∈ st.background_processes →
      ∃ i, i < st.background_processes.length ∧
        st.background_processes[i]? = some 0 ∧
        (∀ j < i, st.background_processes[j]? ≠ some 0) ∧
        r.session.background_processes = st.background_processes.set i pid) ∧
    r.session.prev_fg_status = st.prev_fg_status ∧
    init_session.background_processes.length = MAX_BG_PC ∧
    (∀ (o : IterOracle) (cmd : command_line), cmd.is_bg = true → st.fg_only = false →
      (main_iteration o cmd st).session.prev_fg_status = st.prev_fg_status) := by
  subst hr
  refine ⟨rfl, by simp [background_process], rfl, ?_, ?_, rfl, by simp [init_session], ?_⟩
  · intro h
    simp only [background_process]
    exact (add_bg_process_spec pid st.background_processes).1 h
  · intro h
    simp only [background_process]
    exact (add_bg_process_spec pid st.background_processes).2 h
  · intro o cmd hbg hfg
    simp only [main_iteration]
    cases hhead : cmd.argv.head? with
    | none => rfl
    | some c =>
      by_cases hc : c.data.head? = some '#'
      · simp [hc]
      · by_cases hexit : c = "exit"
        · simp [hc, hexit]
        · by_cases hcd : c = "cd"
          · simp [hc, hexit, hcd]
          · by_cases hstatus : c = "status"
            · simp [hc, hexit, hcd, hstatus]
            · simp only [hc, hexit, hcd, hstatus, if_false]
              simp [dispatch_external, hbg, hfg, background_process]
              cases hfork : o.fork_ok <;> simp

/-- C3 witness: instantiation at pid 5 and the initial session. -/
theorem C3_background_execution_witness :
    (background_process (some 5) init_session).session.background_processes =
      add_bg_process 5 init_session.background_processes :=
  (C3_background_execution 5 init_session _ rfl).2.2.1

/-- C4: Background job reaper and table invariant — a reap pass keeps
the table's shape; a zero slot stays zero with no effect (re-polling a
cleared slot does nothing); a nonzero slot whose process still runs is
left unchanged; a nonzero slot whose process terminated is cleared and
its "background pid P is done" message printed; the
no-duplicate-live-pids invariant is preserved both by the reaper and by
`add_bg_process` with a fresh pid; a reap pass is idempotent; and every
interpreter loop iteration begins with the reaper's output, whatever
the command is. -/
theorem C4_reaper (env : Int → Option Termination) (l : List Int) :
    (check_background_processes env l).1.length = l.length ∧
    (∀ i : Nat, l[i]? = some 0 → (check_background_processes env l).1[i]? = some 0) ∧
    (∀ (i : Nat) (p : Int), l[i]? = some p → p ≠ 0 → env p = none →
      (check_background_processes env l).1[i]? = some p) ∧
    (∀ (i : Nat) (p : Int) (t : Termination), l[i]? = some p → p ≠ 0 → env p = some t →
      (check_background_processes env l).1[i]? = some 0 ∧
        bg_done_message p t ∈ (check_background_processes env l).2) ∧
    ((l.filter fun p => p != 0).Nodup →
      ((check_background_processes env l).1.filter fun p => p != 0).Nodup) ∧
    (∀ pid : Int, pid ∉ l → (l.filter fun p => p != 0).Nodup →
      ((add_bg_process pid l).filter fun p => p != 0).Nodup) ∧
    check_background_processes env (check_background_processes env l).1 =
      ((check_background_processes env l).1, []) ∧
    (∀ (o : IterOracle) (cmd : command_line) (st : Session),
      o.reap_env = env → st.background_processes = l →
      ∃ rest, (main_iteration o cmd st).events =
        (check_background_processes env l).2.map Event.print ++ rest) := by
  refine ⟨?_, ?_, ?_, ?_, ?_, ?_, ?_, ?_⟩
  · rw [check_background_processes_fst]
    simp
  · intro i h
    rw [check_background_processes_fst, List.getElem?_map, h]
    simp [reap_slot]
  · intro i p h hp henv
    rw [check_background_processes_fst, List.getElem?_map, h]
    simp [reap_slot, hp, henv]
  · intro i p t h hp henv
    constructor
    · rw [check_background_processes_fst, List.getElem?_map, h]
      simp [reap_slot, hp, henv]
    · exact check_background_processes_snd_mem env l p t (List.getElem?_mem h) hp henv
  · intro hnd
    rw [check_background_processes_fst]
    exact hnd.sublist (reap_filter_sublist env l)
  · exact fun pid hfresh hnd => add_bg_process_nodup pid l hfresh hnd
  · refine Prod.ext ?_ ?_
    · rw [check_background_processes_fst, check_background_processes_fst, List.map_map]
      exact List.map_congr_left fun a _ => reap_slot_idem env a
    · apply check_background_processes_snd_nil
      intro p hp
      rw [check_background_processes_fst] at hp
      obtain ⟨q, _, hq⟩ := List.mem_map.mp hp
      rcases reap_slot_cases env q with h | h
      · exact Or.inl (hq ▸ h ▸ rfl)
      · by_cases hq0 : q = 0
        · exact Or.inl (by rw [← hq, h, hq0])
        · cases henvq : env q with
          | none => exact Or.inr (by rw [← hq, h]; exact henvq)
          | some t =>
            exfalso
            have hz : reap_slot env q = 0 := by simp [reap_slot, hq0, henvq]
            rw [h] at hz
            exact hq0 hz
  · intro o cmd st ho hst
    subst ho
    subst hst
    cases hhead : cmd.argv.head? with
    | none => exact ⟨[], by simp [main_iteration, hhead]⟩
    | some c =>
      by_cases hc : c.data.head? = some '#'
      · exact ⟨[], by simp [main_iteration, hhead, hc]⟩
      · by_cases hexit : c = "exit"
        · exact ⟨[], by simp [main_iteration, hhead, hc, hexit]⟩
        · by_cases hcd : c = "cd"
          · exact ⟨[], by simp [main_iteration, hhead, hc, hexit, hcd]⟩
          · by_cases hstatus : c = "status"
            · refine ⟨[Event.print (status_output st.prev_fg_status)], ?_⟩
              simp [main_iteration, hhead, hc, hexit, hcd, hstatus]
            · refine ⟨(dispatch_external (if o.fork_ok then some o.child_pid else none)
                o.fg_term cmd { st with background_processes :=
                  (check_background_processes o.reap_env st.background_processes).1 }).events, ?_⟩
              simp [main_iteration, hhead, hc, hexit, hcd, hstatus]

/-- C4 witness: in the table `[7, 0, 3]` under `env0`, the terminated
pid 7 is reported. -/
theorem C4_reaper_witness :
    bg_done_message 7 (.exited 0) ∈ (check_background_processes env0 [7, 0, 3]).2 :=
  ((C4_reaper env0 [7, 0, 3]).2.2.2.1 0 7 (.exited 0) rfl (by decide) rfl).2

/-- The dispatcher on a successful fork never makes the shell itself
exit, whichever way it routes the command. -/
theorem dispatch_external_shell_exit_of_fork (pid : Int) (t : Termination)
    (cmd : command_line) (st : Session) :
    (dispatch_external (some pid) t cmd st).shell_exit = none := by
  unfold dispatch_external
  split <;> simp [foreground_process, background_process]

/-- C5: Error exit-code convention — in both child bodies a failed
`open` of a redirection path exits that child with status 1, a failed
`dup2` bind or a failed `execvp` exits it with status 2; the shell
itself never adopts these codes (after a successful fork its own exit
status is untouched, and an iteration ends the interpreter only for the
`exit` built-in, with status 0), and a `fork` failure is the one launch
error that aborts the interpreter (status 1). -/
theorem C5_exit_codes (env : ChildEnv) (cmd : command_line) :
    (cmd.input_file.isSome = true → env.open_in_ok = false →
      (fg_child env cmd).1 = .exitedWith 1) ∧
    (cmd.input_file.isSome = true → env.open_in_ok = true → env.dup_in_ok = false →
      (fg_child env cmd).1 = .exitedWith 2) ∧
    ((cmd.input_file.isSome = true → env.open_in_ok = true ∧ env.dup_in_ok = true) →
      cmd.output_file.isSome = true → env.open_out_ok = false →
      (fg_child env cmd).1 = .exitedWith 1) ∧
    ((cmd.input_file.isSome = true → env.open_in_ok = true ∧ env.dup_in_ok = true) →
      cmd.output_file.isSome = true → env.open_out_ok = true → env.dup_out_ok = false →
      (fg_child env cmd).1 = .exitedWith 2) ∧
    ((cmd.input_file.isSome = true → env.open_in_ok = true ∧ env.dup_in_ok = true) →
      (cmd.output_file.isSome = true → env.open_out_ok = true ∧ env.dup_out_ok = true) →
      env.exec_ok = false → (fg_child env cmd).1 = .exitedWith 2) ∧
    (env.open_in_ok = false → (bg_child env cmd).1 = .exitedWith 1) ∧
    (env.open_in_ok = true → env.dup_in_ok = false → (bg_child env cmd).1 = .exitedWith 2) ∧
    (env.open_in_ok = true → env.dup_in_ok = true → env.open_out_ok = false →
      (bg_child env cmd).1 = .exitedWith 1) ∧
    (env.open_in_ok = true → env.dup_in_ok = true → env.open_out_ok = true →
      env.dup_out_ok = false → (bg_child env cmd).1 = .exitedWith 2) ∧
    (env.open_in_ok = true → env.dup_in_ok = true → env.open_out_ok = true →
      env.dup_out_ok = true → env.exec_ok = false → (bg_child env cmd).1 = .exitedWith 2) ∧
    (∀ (pid : Int) (t : Termination) (st : Session),
      (foreground_process (some pid) t st).shell_exit = none ∧
      (background_process (some pid) st).shell_exit = none ∧
      (foreground_process none t st).shell_exit = some 1 ∧
      (background_process none st).shell_exit = some 1) ∧
    (∀ (o : IterOracle) (cmd2 : command_line) (st : Session), o.fork_ok = true →
      (main_iteration o cmd2 st).shell_exit = none ∨
      (main_iteration o cmd2 st).shell_exit = some 0) := by
  obtain ⟨oi, di, oo, od, ex⟩ := env
  refine ⟨?_, ?_, ?_, ?_, ?_, ?_, ?_, ?_, ?_, ?_, ?_, ?_⟩
  · intro hin h
    cases hi : cmd.input_file <;> simp_all [fg_child]
  · intro hin h1 h2
    cases hi : cmd.input_file <;> simp_all [fg_child]
  · intro hin hout h
    cases hi : cmd.input_file <;> cases ho : cmd.output_file <;> simp_all [fg_child]
  · intro hin hout h1 h2
    cases hi : cmd.input_file <;> cases ho : cmd.output_file <;> simp_all [fg_child]
  · intro hin hout h
    cases hi : cmd.input_file <;> cases ho : cmd.output_file <;> simp_all [fg_child]
  · intro h
    simp_all [bg_child]
  · intro h1 h2
    simp_all [bg_child]
  · intro h1 h2 h3
    simp_all [bg_child]
  · intro h1 h2 h3 h4
    simp_all [bg_child]
  · intro h1 h2 h3 h4 h5
    simp_all [bg_child]
  · intro pid t st
    exact ⟨rfl, rfl, rfl, rfl⟩
  · intro o cmd2 st hfork
    cases hhead : cmd2.argv.head? with
    | none => exact Or.inl (by simp [main_iteration, hhead])
    | some c =>
      by_cases hc : c.data.head? = some '#'
      · exact Or.inl (by simp [main_iteration, hhead, hc])
      · by_cases hexit : c = "exit"
        · exact Or.inr (by simp [main_iteration, hhead, hc, hexit])
        · by_cases hcd : c = "cd"
          · exact Or.inl (by simp [main_iteration, hhead, hc, hexit, hcd])
          · by_cases hstatus : c = "status"
            · exact Or.inl (by simp [main_iteration, hhead, hc, hexit, hcd, hstatus])
            · refine Or.inl ?_
              simp only [main_iteration, hhead, hc, hexit, hcd, hstatus, if_false, hfork,
                if_true]
              exact dispatch_external_shell_exit_of_fork o.child_pid o.fg_term cmd2 _

/-- C5 witness: a background child whose input-side `open` fails exits
with status 1. -/
theorem C5_exit_codes_witness :
    (bg_child ⟨false, true, true, true, true⟩ ⟨["cat"], none, none, true⟩).1 =
      .exitedWith 1 :=
  (C5_exit_codes ⟨false, true, true, true, true⟩
    ⟨["cat"], none, none, true⟩).2.2.2.2.2.1 rfl

/-- C6: Background null-device defaults — the background child's first
action opens the given input path, or `/dev/null` when none was given,
read-only; and (once the input side is bound) it opens the given output
path, or `/dev/null` when none was given, write-only/create/truncate
with mode 0644, then binds it to fd 1. -/
theorem C6_bg_null_defaults (env : ChildEnv) (cmd : command_line) :
    ((bg_child env cmd).2.head? =
      some (.openFile (cmd.input_file.getD "/dev/null") .readOnly)) ∧
    (cmd.input_file = none →
      (bg_child env cmd).2.head? = some (.openFile "/dev/null" .readOnly)) ∧
    (env.open_in_ok = true → env.dup_in_ok = true → env.open_out_ok = true →
      env.dup_out_ok = true →
      (bg_child env cmd).2 =
        [.openFile (cmd.input_file.getD "/dev/null") .readOnly, .dupTo 0,
          .openFile (cmd.output_file.getD "/dev/null") .writeCreateTrunc644, .dupTo 1,
          .exec (cmd.argv.headD "")]) ∧
    (cmd.output_file = none → env.open_in_ok = true → env.dup_in_ok = true →
      ChildAction.openFile "/dev/null" .writeCreateTrunc644 ∈ (bg_child env cmd).2) := by
  obtain ⟨oi, di, oo, od, ex⟩ := env
  refine ⟨?_, ?_, ?_, ?_⟩
  · cases oi <;> cases di <;> cases oo <;> cases od <;> cases ex <;> simp [bg_child]
  · intro hin
    cases oi <;> cases di <;> cases oo <;> cases od <;> cases ex <;> simp [bg_child, hin]
  · intro h1 h2 h3 h4
    subst h1; subst h2; subst h3; subst h4
    cases ex <;> simp [bg_child]
  · intro hout h1 h2
    subst h1; subst h2
    cases oo <;> cases od <;> cases ex <;> simp [bg_child, hout]

/-- C6 witness: with no explicit paths and a fully successful
environment, the background child binds both standard streams to
`/dev/null`. -/
theorem C6_bg_null_defaults_witness :
    (bg_child ⟨true, true, true, true, true⟩ ⟨["sleep", "5"], none, none, true⟩).2 =
      [.openFile "/dev/null" .readOnly, .dupTo 0,
        .openFile "/dev/null" .writeCreateTrunc644, .dupTo 1, .exec "sleep"] :=
  (C6_bg_null_defaults ⟨true, true, true, true, true⟩
    ⟨["sleep", "5"], none, none, true⟩).2.2.1 rfl rfl rfl rfl

/-- C7 counterexample: the claim as stated is false of the code — at a
concrete command and a fully successful environment, neither child body
contains any explicit restore of the default SIGINT disposition before
replacing its program image (no `setSigintDefault` action occurs in
either trace). -/
theorem C7_sigint_counterexample :
    ChildAction.setSigintDefault ∉
      (fg_child ⟨true, true, true, true, true⟩ ⟨["sleep", "5"], none, none, false⟩).2 ∧
    ChildAction.setSigintDefault ∉
      (bg_child ⟨true, true, true, true, true⟩ ⟨["sleep", "5"], none, none, true⟩).2 := by
  decide

/-- C7 amended: delivery of SIGINT to the shell process changes nothing
(the handler body is empty, and the interpreter is not terminated), and
although no child explicitly restores the default SIGINT disposition
before `execvp`, the POSIX reset of caught handlers across a successful
`exec` leaves every actually-executed child program with the default
disposition, so a foreground child can still be interrupted. -/
theorem C7_sigint (st : Session) (env : ChildEnv) (cmd : command_line) :
    handle_SIGINT st = st ∧
    (∀ p args, (fg_child env cmd).1 = .execed p args →
      run_disposition (fg_child env cmd).2 shell_sigint_disposition = .dfl) ∧
    (∀ p args, (bg_child env cmd).1 = .execed p args →
      run_disposition (bg_child env cmd).2 shell_sigint_disposition = .dfl) := by
  obtain ⟨oi, di, oo, od, ex⟩ := env
  refine ⟨rfl, ?_, ?_⟩
  · intro p args h
    cases hin : cmd.input_file <;> cases hout : cmd.output_file <;>
      cases oi <;> cases di <;> cases oo <;> cases od <;> cases ex <;>
        simp_all [fg_child, run_disposition, disposition_after_exec, shell_sigint_disposition]
  · intro p args h
    cases oi <;> cases di <;> cases oo <;> cases od <;> cases ex <;>
      simp_all [bg_child, run_disposition, disposition_after_exec, shell_sigint_disposition]

/-- C7 witness: at a concrete command the foreground child's executed
program starts with the default SIGINT disposition. -/
theorem C7_sigint_witness :
    run_disposition
      (fg_child ⟨true, true, true, true, true⟩ ⟨["sleep", "5"], none, none, false⟩).2
      shell_sigint_disposition = .dfl :=
  (C7_sigint init_session ⟨true, true, true, true, true⟩
    ⟨["sleep", "5"], none, none, false⟩).2.1 "sleep" ["sleep", "5"] (by decide)

/-- C8 counterexample: the claim as stated is false of the code — the
startup record is `{exited := false, terminated := false, code := 0}`,
which is not tagged exited-with-code (its `exited` tag is `false`; had
it been tagged exited with code 0, the `status` built-in would print
"exit value 0", not the "exit status 0" it actually prints). -/
theorem C8_initial_status_counterexample :
    ¬(prev_fg_status_init.exited = true) ∧
    status_output ⟨true, false, 0⟩ ≠ status_output prev_fg_status_init := by
  decide

/-- C8 amended: at startup the session state is initialized with
`foreground_only = false` and a last-status record with both tags false
and code 0 (a distinct "no foreground command yet" state rather than an
exited-with-code-0 record), and the `status` built-in, queried before
any foreground command has run, prints "exit status 0" — both on the
raw initial record and through a full interpreter iteration from the
initial session. -/
theorem C8_initial_status :
    init_session.fg_only = false ∧
    init_session.prev_fg_status = prev_fg_status_init ∧
    prev_fg_status_init = ⟨false, false, 0⟩ ∧
    status_output prev_fg_status_init = "exit status 0" ∧
    (main_iteration ⟨fun _ => none, true, 5, .exited 0⟩
        ⟨["status"], none, none, false⟩ init_session).events =
      [Event.print "exit status 0"] := by
  refine ⟨rfl, rfl, rfl, by decide, ?_⟩
  simp [main_iteration, init_session, status_output, prev_fg_status_init,
    check_background_processes, MAX_BG_PC, List.replicate]

/-- C9: SIGTSTP toggle — each delivery flips `foreground_only`; the
false-to-true flip prints exactly the entering banner, the
true-to-false flip exactly the exiting banner, always exactly one
banner; and two consecutive deliveries restore the original mode (the
toggle is an involution). -/
theorem C9_sigtstp_toggle (b : Bool) :
    (handle_SIGTSTP b).1 = !b ∧
    handle_SIGTSTP false = (true, [msg_enter]) ∧
    handle_SIGTSTP true = (false, [msg_exit]) ∧
    (handle_SIGTSTP b).2.length = 1 ∧
    (handle_SIGTSTP (handle_SIGTSTP b).1).1 = b := by
  cases b <;> exact ⟨rfl, rfl, rfl, rfl, rfl⟩

/-- The parse succeeds exactly when the recursion never reaches a
trailing redirection operator, whatever command has been accumulated so
far. -/
theorem parse_tokens_isSome (ts : List String) :
    ∀ acc, (parse_tokens ts acc).isSome = !trailing_redirect_crash ts := by
  induction ts using trailing_redirect_crash.induct with
  | case1 =>
    intro acc
    simp [parse_tokens, trailing_redirect_crash]
  | case2 t =>
    intro acc
    by_cases hlt : t = "<"
    · simp [parse_tokens, trailing_redirect_crash, hlt]
    · by_cases hgt : t = ">"
      · simp [parse_tokens, trailing_redirect_crash, hlt, hgt]
      · by_cases hamp : t = "&"
        · simp [parse_tokens, trailing_redirect_crash, hlt, hgt, hamp]
        · simp [parse_tokens, trailing_redirect_crash, hlt, hgt, hamp]
  | case3 t f rest hcond ih =>
    intro acc
    rcases (by simpa using hcond : t = "<" ∨ t = ">") with hlt' | hgt'
    · simp [parse_tokens, trailing_redirect_crash, hlt', ih]
    · by_cases hlt' : t = "<"
      · simp [parse_tokens, trailing_redirect_crash, hlt', ih]
      · simp [parse_tokens, trailing_redirect_crash, hlt', hgt', ih]
  | case4 t f rest hcond ih =>
    intro acc
    have hcond' : ¬(t = "<" ∨ t = ">") := by
      intro h
      apply hcond
      rcases h with h | h <;> simp [h]
    have hlt : ¬t = "<" := fun h => hcond' (Or.inl h)
    have hgt : ¬t = ">" := fun h => hcond' (Or.inr h)
    by_cases hamp : t = "&"
    · simp [parse_tokens, trailing_redirect_crash, hlt, hgt, hamp, ih]
    · simp [parse_tokens, trailing_redirect_crash, hlt, hgt, hamp, ih]

/-- A crashing token line necessarily ends in a `<` or `>` token. -/
theorem trailing_redirect_crash_getLast (ts : List String) :
    trailing_redirect_crash ts = true →
    ts.getLast? = some "<" ∨ ts.getLast? = some ">" := by
  induction ts using trailing_redirect_crash.induct with
  | case1 => intro h; simp [trailing_redirect_crash] at h
  | case2 t =>
    intro h
    simp only [trailing_redirect_crash, Bool.or_eq_true_iff, decide_eq_true_eq] at h
    rcases h with h | h <;> simp [h]
  | case3 t f rest hcond ih =>
    intro h
    simp only [trailing_redirect_crash, hcond, if_true] at h
    rcases ih h with hl | hl <;>
      [left; right] <;>
      · cases rest with
        | nil => simp [trailing_redirect_crash] at h
        | cons r rs => simpa using hl
  | case4 t f rest hcond ih =>
    intro h
    simp only [trailing_redirect_crash] at h
    rw [if_neg hcond] at h
    rcases ih h with hl | hl <;> [left; right] <;> simpa using hl

/-- C10 counterexample: the claim as stated is false of the code — on
the token line `< >` the final token is `>`, yet `parse_input` returns
a well-defined command (the `>` was consumed as the filename of the
preceding `<`, so `strdup` is never applied to NULL and no crash
occurs). -/
theorem C10_parse_counterexample :
    (["<", ">"] : List String).getLast? = some ">" ∧
    parse_input ["<", ">"] = some ⟨[], some ">", none, false⟩ := by
  decide

/-- C10 amended: `parse_input` returns a well-defined `ParsedCommand`
exactly when the tokenizer never reaches a `<` or `>` in operator
position with no token after it (`trailing_redirect_crash`); when it
does reach one, `strdup` is applied to the NULL result of `strtok` and
the parse is undefined (crashes) rather than reporting an error.  Such
a crash can only happen on a line whose final token is `<` or `>` — but
not on every such line, since a final `<`/`>` may instead be consumed
as the filename of a preceding redirection operator. -/
theorem C10_parse_crash (ts : List String) :
    ((parse_input ts).isSome = !trailing_redirect_crash ts) ∧
    (trailing_redirect_crash ts = true →
      ts.getLast? = some "<" ∨ ts.getLast? = some ">") := by
  constructor
  · exact parse_tokens_isSome ts ⟨[], none, none, false⟩
  · exact trailing_redirect_crash_getLast ts

/-- C10 witness: the token line `echo <` crashes the parse, and its
final token is `<`. -/
theorem C10_parse_crash_witness :
    (parse_input ["echo", "<"]).isSome = !trailing_redirect_crash ["echo", "<"] ∧
    ((["echo", "<"] : List String).getLast? = some "<" ∨
      (["echo", "<"] : List String).getLast? = some ">") :=
  ⟨(C10_parse_crash ["echo", "<"]).1,
    (C10_parse_crash ["echo", "<"]).2 (by decide)⟩

end Smallsh
